import Mathlib

/-!
Verification of the Ticket Synchronization Engine of `capabl-automagic`
(`src/scripts/notion-bridge.ts` and the generalized bridge variant in
`src/unnamed/part_001`), as a shallow embedding in Lean 4.

JavaScript runtime values reaching the property extractors are modelled by
the inductive `JVal` (null and undefined are identified: every construct
the extractors use — `!p`, `?.`, `??`, property access — treats the two
alike).  A thrown `TypeError` is modelled as `Except.error`.
-/

/-- Model of a JavaScript value as seen by the property extractors.
`jnull` stands for both `null` and `undefined`. -/
inductive JVal where
  | jnull
  | jbool (b : Bool)
  | jnum (n : Int)
  | jstr (s : String)
  | jarr (xs : List JVal)
  | jobj (fields : List (String × JVal))

/-- JavaScript property access `v[k]`: lookup on objects, `undefined`
(modelled `jnull`) on every other value.  All accesses in the source are
either guarded by a truthiness check or used where `undefined` flows into
`??` / `?.`, so the unguarded-access-on-nullish case never arises. -/
def jGet (v : JVal) (k : String) : JVal :=
  match v with
  | .jobj fields =>
    match fields.find? (fun f => f.1 == k) with
    | some f => f.2
    | none => .jnull
  | _ => .jnull

/-- JavaScript truthiness (`if (!prop)` etc.). -/
def jTruthy : JVal → Bool
  | .jnull => false
  | .jbool b => b
  | .jnum n => n != 0
  | .jstr s => s != ""
  | .jarr _ => true
  | .jobj _ => true

/-- `v === s` for a string literal `s`: true only when `v` is that string. -/
def jEqStr (v : JVal) (s : String) : Bool :=
  match v with
  | .jstr t => t == s
  | _ => false

/-- `v ?? d`: nullish coalescing. -/
def jvalOrD (v d : JVal) : JVal :=
  match v with
  | .jnull => d
  | _ => v

mutual

/-- How `Array.prototype.join` renders one element: null/undefined become
the empty string, other values are converted with `String(·)` (an array
rendering as its elements joined with commas). -/
def jJoinPiece : JVal → String
  | .jnull => ""
  | .jbool b => if b then "true" else "false"
  | .jnum n => toString n
  | .jstr s => s
  | .jarr xs => jJoinPieces xs
  | .jobj _ => "[object Object]"

/-- Comma-joined rendering of a list of values. -/
def jJoinPieces : List JVal → String
  | [] => ""
  | [x] => jJoinPiece x
  | x :: y :: rest => jJoinPiece x ++ "," ++ jJoinPieces (y :: rest)

end

/-- Unguarded JavaScript property access `v[k]`, as performed by the map
callbacks `t.plain_text`, `o.name`, `r.id`, `p.id`: accessing a property
on null or undefined raises a `TypeError`; on every other value it
behaves like `jGet`. -/
def jGetStrict (v : JVal) (k : String) : Except String JVal :=
  match v with
  | .jnull => .error "TypeError: cannot read properties of null"
  | _ => .ok (jGet v k)

/-- `xs.map((x) => x[k])`: the callback is run left to right, raising at
the first nullish element. -/
def mapStrict (k : String) (xs : List JVal) : Except String (List JVal) :=
  xs.mapM (fun t => jGetStrict t k)

/-- The body of `extractPlainText` shared by the `rich_text` and `title`
branches: `field?.map((t) => t.plain_text).join("") || null`.
A nullish field short-circuits to null; an array is mapped — raising a
`TypeError` at any nullish element — and then joined (`|| null` turns the
empty string into null); any other value has no `.map` method, so the
call raises a `TypeError`. -/
def extractTextField (field : JVal) : Except String (Option String) :=
  match field with
  | .jnull => .ok none
  | .jarr ts => do
    let vs ← mapStrict "plain_text" ts
    let s := String.join (vs.map jJoinPiece)
    .ok (if s == "" then none else some s)
  | _ => .error "TypeError: map is not a function"

/-- `extractPlainText(prop)` from notion-bridge.ts. -/
def extractPlainText (prop : JVal) : Except String (Option String) :=
  if !jTruthy prop then .ok none
  else if jEqStr (jGet prop "type") "rich_text" then
    extractTextField (jGet prop "rich_text")
  else if jEqStr (jGet prop "type") "title" then
    extractTextField (jGet prop "title")
  else .ok none

/-- `extractSelect(prop)`: handles both `select` and `status` shapes;
`prop.select?.name ?? null` never raises (modelled by `jGet`, which yields
null on any non-object). -/
def extractSelect (prop : JVal) : JVal :=
  if !jTruthy prop then .jnull
  else if jEqStr (jGet prop "type") "select" then jGet (jGet prop "select") "name"
  else if jEqStr (jGet prop "type") "status" then jGet (jGet prop "status") "name"
  else .jnull

/-- `extractMultiSelect(prop)`: `multi_select` natively, falling back to a
one-element collection for a truthy `select` name.
`(prop.multi_select ?? []).map((o) => o.name)` raises when `multi_select`
is a non-nullish non-array, and at any nullish array element. -/
def extractMultiSelect (prop : JVal) : Except String (List JVal) :=
  if !jTruthy prop then .ok []
  else if jEqStr (jGet prop "type") "multi_select" then
    match jGet prop "multi_select" with
    | .jnull => .ok []
    | .jarr os => mapStrict "name" os
    | _ => .error "TypeError: map is not a function"
  else if jEqStr (jGet prop "type") "select" && jTruthy (jGet (jGet prop "select") "name") then
    .ok [jGet (jGet prop "select") "name"]
  else .ok []

/-- `extractUrl(prop)`. -/
def extractUrl (prop : JVal) : JVal :=
  if !jTruthy prop then .jnull
  else if jEqStr (jGet prop "type") "url" then jGet prop "url"
  else .jnull

/-- `extractDate(prop)`: `prop.date?.start ?? null`. -/
def extractDate (prop : JVal) : JVal :=
  if !jTruthy prop then .jnull
  else if jEqStr (jGet prop "type") "date" then jGet (jGet prop "date") "start"
  else .jnull

/-- `extractRelationIds(prop)`: `(prop.relation ?? []).map((r) => r.id)`;
raises when `relation` is a non-nullish non-array, and at any nullish
array element. -/
def extractRelationIds (prop : JVal) : Except String (List JVal) :=
  if !jTruthy prop || !jEqStr (jGet prop "type") "relation" then .ok []
  else
    match jGet prop "relation" with
    | .jnull => .ok []
    | .jarr rs => mapStrict "id" rs
    | _ => .error "TypeError: map is not a function"

/-- `extractAssigneeIds(prop)`: `(prop.people ?? []).map((p) => p.id)`;
raises when `people` is a non-nullish non-array, and at any nullish
array element. -/
def extractAssigneeIds (prop : JVal) : Except String (List JVal) :=
  if !jTruthy prop || !jEqStr (jGet prop "type") "people" then .ok []
  else
    match jGet prop "people" with
    | .jnull => .ok []
    | .jarr ps => mapStrict "id" ps
    | _ => .error "TypeError: map is not a function"

/-- `isAssignedToAISquad(prop)`; `AI_SQUAD_ID` is passed explicitly, the
unset env var being the empty string.  When unset it accepts every ticket
without touching the property. -/
def isAssignedToAISquad (aiSquadId : String) (prop : JVal) : Except String Bool :=
  if aiSquadId == "" then .ok true
  else (extractAssigneeIds prop).map (fun ids => ids.any (fun v => jEqStr v aiSquadId))

/-- The status line of `extractTicket`:
`(extractSelect(props["Status"]) as ShipyardStatus) ?? "Open"`.
The TypeScript cast has no runtime effect: whatever non-null value
`extractSelect` produced is kept as-is. -/
def extractStatus (props : JVal) : JVal :=
  jvalOrD (extractSelect (jGet props "Status")) (.jstr "Open")

/-- One normalized ticket as built by `extractTicket`.  Fields whose source
expression can produce an arbitrary runtime value (the TypeScript types
notwithstanding) are kept as `JVal`. -/
structure RawTicket where
  id : JVal
  title : String
  status : JVal
  summary : Option String
  spec_url : JVal
  due : JVal
  branch : Option String
  commit : Option String
  feature : JVal
  resolved_at : JVal
  area : JVal
  application : JVal
  type : JVal
  priority : JVal
  blocked_by : List JVal
  blocks : List JVal
  created_at : JVal
  updated_at : JVal
  assigned_to_ai_squad : Bool

/-- `extractTicket(page)` from notion-bridge.ts.  The `Except` layer
records the extractor calls that can raise, in the evaluation order of the
source (the two hoisted `extractMultiSelect` calls first, then the object
literal fields top to bottom). -/
def extractTicket (aiSquadId : String) (page : JVal) : Except String RawTicket := do
  let props := jvalOrD (jGet page "properties") (.jobj [])
  let apps ← extractMultiSelect (jGet props "Application")
  let areas ← extractMultiSelect (jGet props "Area")
  let title ← extractPlainText (jGet props "Ticket")
  let summary ← extractPlainText (jGet props "Summary")
  let branch ← extractPlainText (jGet props "Branch")
  let commit ← extractPlainText (jGet props "Commit")
  let blockedBy ← extractRelationIds (jGet props "Dependency")
  let blocks ← extractRelationIds (jGet props "Blocks ")
  let assigned ← isAssignedToAISquad aiSquadId (jGet props "Assignee")
  .ok {
    id := jGet page "id"
    title := title.getD "(untitled)"
    status := extractStatus props
    summary := summary
    spec_url := extractUrl (jGet props "Spec URL")
    due := extractDate (jGet props "Due")
    branch := branch
    commit := commit
    feature := extractSelect (jGet props "Feature")
    resolved_at := extractDate (jGet props "Resolved At")
    area := jvalOrD (areas.getD 0 .jnull) .jnull
    application := jvalOrD (apps.getD 0 .jnull) .jnull
    type := extractSelect (jGet props "Type")
    priority := extractSelect (jGet props "Priority")
    blocked_by := blockedBy
    blocks := blocks
    created_at := jGet page "created_time"
    updated_at := jGet page "last_edited_time"
    assigned_to_ai_squad := assigned
  }

/-- The closed status enum `ShipyardStatus` from `shared/types/shipyard.ts`. -/
def shipyardStatusNames : List String :=
  ["Open", "In Progress", "On hold", "In Review", "Review AI Fix", "Done", "Blocked by human"]

/-!
Normalized pipeline model: the Queue Builder and State Store operate on
already-normalized tickets; claims there quantify over ticket sets, so
the clean field types of `ShipyardTicket` are used.  The configuration
(scope tag `TARGET_APP`, acting identity `AI_SQUAD_ID`) is passed
explicitly, the unset environment variable being the empty string.
-/

/-- A normalized ticket with the fields the Queue Builder inspects
(`ShipyardTicket` of `shared/types/shipyard.ts` plus the assignee id
list from which `assigned_to_ai_squad` is derived). -/
structure Ticket where
  id : String
  title : String
  status : String
  priority : Option String
  application : Option String
  area : Option String
  branch : Option String
  blocked_by : List String
  blocks : List String
  assignees : List String
deriving DecidableEq

/-- `HumanizeQueueItem` of `shared/types/shipyard.ts`. -/
structure QueueItem where
  ticket_id : String
  title : String
  area : Option String
  status : String
  priority : Option String
  blocked_by : List String
  blocks : List String
  branch : Option String
deriving DecidableEq

/-- The projection `syncState` pushes onto the queue for one kept ticket. -/
def toQueueItem (t : Ticket) : QueueItem :=
  { ticket_id := t.id, title := t.title, area := t.area, status := t.status,
    priority := t.priority, blocked_by := t.blocked_by, blocks := t.blocks,
    branch := t.branch }

/-- The scope tag hard-coded in `src/scripts/notion-bridge.ts`. -/
def targetAppScripts : String := "Retail Intelligence Insights"

/-- The status exclusion set of `syncState`. -/
def excludedStatuses : List String := ["Done", "Blocked by human", "On hold"]

/-- Derived eligibility on a normalized ticket, mirroring
`isAssignedToAISquad`: permissive when no acting identity is configured,
otherwise membership of the configured id in the assignee set. -/
def assignedToAISquad (aiSquadId : String) (t : Ticket) : Bool :=
  aiSquadId == "" || t.assignees.contains aiSquadId

/-- Scope matching of the generalized `syncState` (`src/unnamed/part_001`):
`!TARGET_APP || ticket.application === TARGET_APP`.  The scripts variant
hard-codes a non-empty `TARGET_APP`, for which this predicate coincides
with its plain `ticket.application === TARGET_APP`. -/
def matchesApp (targetApp : String) (t : Ticket) : Bool :=
  targetApp == "" || t.application == some targetApp

/-- The `syncState` filter: scope match, AI-squad assignment, status not
excluded. -/
def activePred (targetApp aiSquadId : String) (t : Ticket) : Bool :=
  matchesApp targetApp t && assignedToAISquad aiSquadId t
    && !(excludedStatuses.contains t.status)

/-- The `fetchReadyTickets` filter: status exactly "Open", scope match
(the scripts variant compares against its constant scope), AI-squad
assignment. -/
def readyPred (targetApp aiSquadId : String) (t : Ticket) : Bool :=
  t.status == "Open" && t.application == some targetApp
    && assignedToAISquad aiSquadId t

/-!  The sort shared by `syncState` and `fetchReadyTickets`:

    const aBlocked = a.blocked_by.length > 0 ? 1 : 0;
    const bBlocked = b.blocked_by.length > 0 ? 1 : 0;
    if (aBlocked !== bBlocked) return aBlocked - bBlocked;
    const pa = a.priority ?? "P4";
    const pb = b.priority ?? "P4";
    return pa.localeCompare(pb);

`Array.prototype.sort` is stable (ES2019) and the comparator is a total
preorder on the key (blocked flag, effective priority), so the output is
the unique stable sort by that key; it is embedded as an insertion sort,
which produces exactly that list.  `localeCompare` agrees with
lexicographic string comparison on the declared priority values
"P0".."P4", which is how the key order is modelled. -/

/-- Primary key: 0 for an empty `blocked_by`, 1 otherwise. -/
def blockedRank (blockedBy : List String) : Nat :=
  if blockedBy.isEmpty then 0 else 1

/-- Secondary key: `priority ?? "P4"`. -/
def prioKey (p : Option String) : String := p.getD "P4"

/-- Sort key of a queue item. -/
def sortKeyQ (q : QueueItem) : Nat × String := (blockedRank q.blocked_by, prioKey q.priority)

/-- Sort key of a ticket. -/
def sortKeyT (t : Ticket) : Nat × String := (blockedRank t.blocked_by, prioKey t.priority)

/-- Boolean comparison `comparator(a, b) <= 0`: lexicographic on
(blocked flag, priority string). -/
def keyLe (k1 k2 : Nat × String) : Bool :=
  decide (k1.1 < k2.1) || ((k1.1 == k2.1) && decide (k1.2 ≤ k2.2))

/-- The ascending two-key order of the spec, as a proposition. -/
def keyOrder (k1 k2 : Nat × String) : Prop :=
  k1.1 < k2.1 ∨ (k1.1 = k2.1 ∧ k1.2 ≤ k2.2)

/-- Insert `a` into `l` before the first element it compares `<=` to. -/
def insertByLe {α : Type} (le : α → α → Bool) (a : α) : List α → List α
  | [] => [a]
  | b :: bs => if le a b then a :: b :: bs else b :: insertByLe le a bs

/-- Stable insertion sort by a boolean comparison. -/
def stableSortByLe {α : Type} (le : α → α → Bool) : List α → List α
  | [] => []
  | a :: as => insertByLe le a (stableSortByLe le as)

/-- The queue sort of `syncState`. -/
def sortQueue (l : List QueueItem) : List QueueItem :=
  stableSortByLe (fun a b => keyLe (sortKeyQ a) (sortKeyQ b)) l

/-- The ticket sort of `fetchReadyTickets`. -/
def sortTickets (l : List Ticket) : List Ticket :=
  stableSortByLe (fun a b => keyLe (sortKeyT a) (sortKeyT b)) l

/-- The queue built by `syncState`: filter, project, sort. -/
def buildQueue (targetApp aiSquadId : String) (tickets : List Ticket) : List QueueItem :=
  sortQueue ((tickets.filter (activePred targetApp aiSquadId)).map toQueueItem)

/-- The ready selection of `fetchReadyTickets`: filter, sort. -/
def readyTickets (targetApp aiSquadId : String) (tickets : List Ticket) : List Ticket :=
  sortTickets (tickets.filter (readyPred targetApp aiSquadId))

/-!  State Store: `humanize_state.json` handling. -/

/-- `HumanizeHistoryItem` of `shared/types/shipyard.ts`. -/
structure HistoryItem where
  ticket_id : String
  title : String
  action : String
  timestamp : String
deriving DecidableEq

/-- `HumanizeState`: the persisted snapshot.  `history` is optional
because a parsed JSON document may lack the field — both readers apply
`state.history ?? []`. -/
structure HumanizeState where
  last_synced : String
  queue : List QueueItem
  history : Option (List HistoryItem)
deriving DecidableEq

/-- The snapshot file on disk: absent, present but unparsable JSON, or a
parsed snapshot. -/
inductive DiskFile where
  | absent
  | corrupted
  | valid (state : HumanizeState)
deriving DecidableEq

/-- History recovery at the start of `syncState`: an absent file and an
unparsable file (the `catch` branch) both leave history empty; a parsed
snapshot contributes `prev.history ?? []`. -/
def loadHistory : DiskFile → List HistoryItem
  | .absent => []
  | .corrupted => []
  | .valid st => st.history.getD []

/-- The snapshot `syncState` builds and writes: a queue rebuilt in full
from the fresh tickets, the recovered history, and a fresh timestamp. -/
def syncStateRun (targetApp aiSquadId : String) (tickets : List Ticket)
    (disk : DiskFile) (now : String) : HumanizeState :=
  { last_synced := now
    queue := buildQueue targetApp aiSquadId tickets
    history := some (loadHistory disk) }

/-- The disk content after `syncState` writes its snapshot. -/
def diskAfterSync (targetApp aiSquadId : String) (tickets : List Ticket)
    (disk : DiskFile) (now : String) : DiskFile :=
  .valid (syncStateRun targetApp aiSquadId tickets disk now)

/-- `appendHistory(item)` from `src/unnamed/part_001`:

    try {
      if (fs.existsSync(STATE_FILE)) {
        const state = JSON.parse(fs.readFileSync(STATE_FILE, "utf-8"));
        state.history = state.history ?? [];
        state.history.push(item);
        fs.writeFileSync(STATE_FILE, JSON.stringify(state, null, 2));
      }
    } catch (ignored)

A missing file fails the `existsSync` guard (no write); an unparsable
file makes `JSON.parse` throw before any write, and the `catch` swallows
it (no write, file unchanged); a parsed snapshot is written back with the
entry appended. -/
def appendHistory (disk : DiskFile) (item : HistoryItem) : DiskFile :=
  match disk with
  | .absent => .absent
  | .corrupted => .corrupted
  | .valid st =>
    .valid { st with history := some (st.history.getD [] ++ [item]) }

/-!  Mutation Operations: the remote write payload of a status update. -/

/-- The `properties` payload a status update PATCHes: the status name and
an optional `Resolved At` date. -/
structure StatusWritePayload where
  status : String
  resolved_at : Option String
deriving DecidableEq

/-- `updateTicketStatus` of `src/scripts/notion-bridge.ts`: one write
carrying the status, plus `Resolved At` for "Done" and "Review AI Fix". -/
def updateTicketStatusProps (status now : String) : StatusWritePayload :=
  { status := status
    resolved_at :=
      if status == "Done" || status == "Review AI Fix" then some now else none }

/-- `updateTicketStatus` of `src/unnamed/part_001`: the generalized bridge
writes only the status — no branch sets `Resolved At`. -/
def updateTicketStatusPropsHumanize (status : String) : StatusWritePayload :=
  { status := status, resolved_at := none }

/-!  Paginated Fetcher: `fetchAllShipyardPages`.  The remote transport is
modelled as the finite list of responses it returns to the successive
requests; the traversal consumes them in order.  The result records the
`start_cursor` each issued request carried (`none` for the first request,
which sends no cursor) together with either the concatenated results or
the thrown error. -/

/-- One response of the `/data_sources/:id/query` endpoint, with pages of
an arbitrary type. -/
structure QueryResponse (α : Type) where
  isError : Bool
  message : String
  results : List α
  has_more : Bool
  next_cursor : Option String
deriving DecidableEq

/-- `cursor = data.has_more ? data.next_cursor : undefined`. -/
def respCursor {α : Type} (r : QueryResponse α) : Option String :=
  if r.has_more then r.next_cursor else none

/-- Truthiness of the cursor in `while (cursor)` / `if (cursor)`:
absent and the empty string are falsy. -/
def cursorTruthy : Option String → Bool
  | none => false
  | some s => s != ""

/-- The do/while loop of `fetchAllShipyardPages`.  Each step issues one
request (recording the cursor it carries), aborts on an error-flagged
response — discarding every page accumulated so far, since the exception
propagates past the local `pages` array — and otherwise appends the
page batch, continuing while the response yields a truthy cursor.
An exhausted response script models a transport that never answers. -/
def fetchLoop {α : Type} :
    List (QueryResponse α) → Option String → List (Option String) × Except String (List α)
  | [], c => ([c], .error "no response from transport")
  | r :: rest, c =>
    if r.isError then
      ([c], .error ("Data source query error: " ++ r.message))
    else if cursorTruthy (respCursor r) then
      let out := fetchLoop rest (respCursor r)
      (c :: out.1, out.2.map (fun ps => r.results ++ ps))
    else
      ([c], .ok r.results)

/-- `fetchAllShipyardPages()`: the traversal starts with no cursor. -/
def fetchAllShipyardPages {α : Type} (script : List (QueryResponse α)) :
    List (Option String) × Except String (List α) :=
  fetchLoop script none

/-!  Ticket creation: body chunking and title truncation.  JavaScript
strings are modelled as lists of their units. -/

/-- The chunking loop of `createTicket`:

    for (let i = 0; i < body.length; i += 2000) {
      chunks.push(body.substring(i, i + 2000));
    }
-/
def chunkBody (body : List Char) : List (List Char) :=
  if h : body = [] then []
  else body.take 2000 :: chunkBody (body.drop 2000)
termination_by body.length
decreasing_by
  simp only [List.length_drop]
  exact Nat.sub_lt (List.length_pos.mpr h) (by decide)

/-- One paragraph block of the creation payload. -/
structure ParagraphBlock where
  text : List Char
deriving DecidableEq

/-- The `children` blocks `createTicket` attaches: one paragraph block per
chunk, in original order (an empty body attaches none — the `if (body)`
guard). -/
def createTicketChildren (body : List Char) : List ParagraphBlock :=
  (chunkBody body).map (fun c => { text := c })

/-- The title sent by `createTicket` (both variants):
`title.substring(0, 200)`. -/
def createTicketTitle (title : List Char) : List Char :=
  title.take 200

/-!  Concrete values used by counterexamples and witnesses. -/

/-- `true` on a non-nullish value: a map callback may access a property
on it without raising. -/
def elemNotNull : JVal → Bool
  | .jnull => false
  | _ => true

/-- `true` exactly on payloads the `(x ?? []).map((e) => e[k])` pattern
traverses without raising: nullish, or an array all of whose elements are
non-nullish. -/
def arrayishSafe : JVal → Bool
  | .jnull => true
  | .jarr xs => xs.all elemNotNull
  | _ => false

/-- A `rich_text`-tagged property whose array payload contains a null
element: the map callback `t.plain_text` raises on it. -/
def nullElemRichTextProp : JVal :=
  .jobj [("type", .jstr "rich_text"), ("rich_text", .jarr [.jnull])]

/-- A `multi_select`-tagged property with a null array element. -/
def nullElemMultiProp : JVal :=
  .jobj [("type", .jstr "multi_select"), ("multi_select", .jarr [.jnull])]

/-- A `relation`-tagged property with a null array element. -/
def nullElemRelationProp : JVal :=
  .jobj [("type", .jstr "relation"), ("relation", .jarr [.jnull])]

/-- A `people`-tagged property with a null array element. -/
def nullElemPeopleProp : JVal :=
  .jobj [("type", .jstr "people"), ("people", .jarr [.jnull])]

/-- A remote page whose Status property carries a select name outside the
closed `ShipyardStatus` enum. -/
def garbageStatusPage : JVal :=
  .jobj [("properties", .jobj [("Status",
    .jobj [("type", .jstr "status"), ("status", .jobj [("name", .jstr "Garbage")])])])]

/-- A `rich_text`-tagged property whose payload is a number: `42?.map` is
not a function, so `extractPlainText` raises. -/
def badRichTextProp : JVal :=
  .jobj [("type", .jstr "rich_text"), ("rich_text", .jnum 42)]

/-- The ticket `extractTicket` yields for a page missing every property
(and even the `properties` map itself): all neutral defaults, the
sentinel title, status "Open". -/
def emptyPageTicket (aiSquadId : String) : RawTicket :=
  { id := .jnull, title := "(untitled)", status := .jstr "Open", summary := none,
    spec_url := .jnull, due := .jnull, branch := none, commit := none,
    feature := .jnull, resolved_at := .jnull, area := .jnull, application := .jnull,
    type := .jnull, priority := .jnull, blocked_by := [], blocks := [],
    created_at := .jnull, updated_at := .jnull,
    assigned_to_ai_squad := (aiSquadId == "") }

/-- A sample history entry. -/
def sampleEntry : HistoryItem :=
  { ticket_id := "t-1", title := "Sample", action := "done", timestamp := "2026-01-01T00:00:00Z" }

/-- Page 1 of a three-page listing: two results, next cursor "A". -/
def respA : QueryResponse Nat :=
  { isError := false, message := "", results := [1, 2], has_more := true, next_cursor := some "A" }

/-- Page 2: one result, next cursor "B". -/
def respB : QueryResponse Nat :=
  { isError := false, message := "", results := [3], has_more := true, next_cursor := some "B" }

/-- Final page: one result, no further cursor. -/
def respC : QueryResponse Nat :=
  { isError := false, message := "", results := [4], has_more := false, next_cursor := none }

/-- An error-flagged response. -/
def respErr : QueryResponse Nat :=
  { isError := true, message := "boom", results := [], has_more := false, next_cursor := none }

/-!  Lemmas about the stable insertion sort. -/

theorem insertByLe_perm {α : Type} (le : α → α → Bool) (a : α) (l : List α) :
    List.Perm (insertByLe le a l) (a :: l) := by
  induction l with
  | nil => simp [insertByLe]
  | cons b bs ih =>
    by_cases h : le a b = true
    · simp [insertByLe, h]
    · simp only [insertByLe, h, if_false, Bool.not_eq_true]
      exact (ih.cons b).trans (List.Perm.swap a b bs)

theorem stableSortByLe_perm {α : Type} (le : α → α → Bool) (l : List α) :
    List.Perm (stableSortByLe le l) l := by
  induction l with
  | nil => simp [stableSortByLe]
  | cons a as ih =>
    exact (insertByLe_perm le a (stableSortByLe le as)).trans (ih.cons a)

theorem mem_insertByLe {α : Type} (le : α → α → Bool) (a x : α) (l : List α) :
    x ∈ insertByLe le a l ↔ x = a ∨ x ∈ l := by
  rw [(insertByLe_perm le a l).mem_iff, List.mem_cons]

theorem pairwise_insertByLe {α : Type} (le : α → α → Bool)
    (htot : ∀ x y, le x y = true ∨ le y x = true)
    (htrans : ∀ x y z, le x y = true → le y z = true → le x z = true)
    (a : α) (l : List α) (h : l.Pairwise (fun x y => le x y = true)) :
    (insertByLe le a l).Pairwise (fun x y => le x y = true) := by
  induction l with
  | nil => simp [insertByLe]
  | cons b bs ih =>
    rcases List.pairwise_cons.mp h with ⟨hb, hbs⟩
    by_cases hab : le a b = true
    · simp only [insertByLe, hab, if_true]
      refine List.pairwise_cons.mpr ⟨?_, h⟩
      intro x hx
      rcases List.mem_cons.mp hx with rfl | hx
      · exact hab
      · exact htrans a b x hab (hb x hx)
    · simp only [insertByLe, hab, if_false, Bool.not_eq_true]
      refine List.pairwise_cons.mpr ⟨?_, ih hbs⟩
      intro x hx
      rcases (mem_insertByLe le a x bs).mp hx with rfl | hx
      · rcases htot x b with hc | hc
        · exact absurd hc hab
        · exact hc
      · exact hb x hx

theorem pairwise_stableSortByLe {α : Type} (le : α → α → Bool)
    (htot : ∀ x y, le x y = true ∨ le y x = true)
    (htrans : ∀ x y z, le x y = true → le y z = true → le x z = true)
    (l : List α) :
    (stableSortByLe le l).Pairwise (fun x y => le x y = true) := by
  induction l with
  | nil => simp [stableSortByLe]
  | cons a as ih => exact pairwise_insertByLe le htot htrans a _ ih

theorem filter_insertByLe_pos {α : Type} (le : α → α → Bool) (p : α → Bool)
    (a : α) (hpa : p a = true) (hskip : ∀ b, le a b = false → p b = false)
    (l : List α) :
    (insertByLe le a l).filter p = a :: l.filter p := by
  induction l with
  | nil => simp [insertByLe, hpa]
  | cons b bs ih =>
    by_cases h : le a b = true
    · simp [insertByLe, h, hpa]
    · have hpb : p b = false := hskip b (Bool.eq_false_iff.mpr h)
      simp [insertByLe, h, hpb, ih]

theorem filter_insertByLe_neg {α : Type} (le : α → α → Bool) (p : α → Bool)
    (a : α) (hpa : p a = false) (l : List α) :
    (insertByLe le a l).filter p = l.filter p := by
  induction l with
  | nil => simp [insertByLe, hpa]
  | cons b bs ih =>
    by_cases h : le a b = true
    · simp [insertByLe, h, hpa]
    · by_cases hpb : p b = true
      · simp [insertByLe, h, hpb, ih]
      · simp [insertByLe, h, Bool.eq_false_iff.mpr hpb, ih]

theorem filter_stableSortByLe {α : Type} (le : α → α → Bool) (p : α → Bool)
    (hp : ∀ a b, le a b = false → p a = true → p b = false) (l : List α) :
    (stableSortByLe le l).filter p = l.filter p := by
  induction l with
  | nil => simp [stableSortByLe]
  | cons a as ih =>
    by_cases hpa : p a = true
    · rw [show stableSortByLe le (a :: as) = insertByLe le a (stableSortByLe le as) from rfl,
        filter_insertByLe_pos le p a hpa (fun b hb => hp a b hb hpa), ih]
      simp [hpa]
    · have hpa2 : p a = false := Bool.eq_false_iff.mpr hpa
      rw [show stableSortByLe le (a :: as) = insertByLe le a (stableSortByLe le as) from rfl,
        filter_insertByLe_neg le p a hpa2, ih]
      simp [hpa2]

/-!  Lemmas about the two-key comparator. -/

theorem keyLe_iff (k1 k2 : Nat × String) : keyLe k1 k2 = true ↔ keyOrder k1 k2 := by
  simp [keyLe, keyOrder, Bool.or_eq_true, Bool.and_eq_true, decide_eq_true_eq]

theorem keyLe_total (k1 k2 : Nat × String) : keyLe k1 k2 = true ∨ keyLe k2 k1 = true := by
  simp only [keyLe_iff, keyOrder]
  rcases Nat.lt_trichotomy k1.1 k2.1 with h | h | h
  · exact Or.inl (Or.inl h)
  · rcases le_total k1.2 k2.2 with h2 | h2
    · exact Or.inl (Or.inr ⟨h, h2⟩)
    · exact Or.inr (Or.inr ⟨h.symm, h2⟩)
  · exact Or.inr (Or.inl h)

theorem keyLe_trans (k1 k2 k3 : Nat × String) :
    keyLe k1 k2 = true → keyLe k2 k3 = true → keyLe k1 k3 = true := by
  simp only [keyLe_iff, keyOrder]
  rintro (h | ⟨h, h2⟩) (g | ⟨g, g2⟩)
  · exact Or.inl (h.trans g)
  · exact Or.inl (g ▸ h)
  · exact Or.inl (h ▸ g)
  · exact Or.inr ⟨h.trans g, h2.trans g2⟩

theorem keyLe_refl (k : Nat × String) : keyLe k k = true := by
  simp [keyLe_iff, keyOrder]

theorem ne_of_keyLe_false {k1 k2 : Nat × String} (h : keyLe k1 k2 = false) : k1 ≠ k2 := by
  intro heq
  rw [heq, keyLe_refl k2] at h
  exact Bool.noConfusion h

theorem stableSortByKey_props {α : Type} (key : α → Nat × String) (l : List α) :
    ((stableSortByLe (fun a b => keyLe (key a) (key b)) l).Pairwise
        (fun a b => keyOrder (key a) (key b)))
    ∧ List.Perm (stableSortByLe (fun a b => keyLe (key a) (key b)) l) l
    ∧ ∀ k : Nat × String,
        (stableSortByLe (fun a b => keyLe (key a) (key b)) l).filter (fun x => key x == k)
          = l.filter (fun x => key x == k) := by
  refine ⟨?_, stableSortByLe_perm _ l, ?_⟩
  · have hp := pairwise_stableSortByLe (fun a b => keyLe (key a) (key b))
      (fun x y => keyLe_total (key x) (key y))
      (fun x y z => keyLe_trans (key x) (key y) (key z)) l
    exact hp.imp (fun h => (keyLe_iff _ _).mp h)
  · intro k
    apply filter_stableSortByLe
    intro a b hle hpa
    have hne := ne_of_keyLe_false hle
    have hka : key a = k := by simpa using hpa
    have : key b ≠ k := fun hkb => hne (by rw [hka, hkb])
    simpa using this

/-- C1: the queue produced by the Queue Builder — both the active-queue
selection in `syncState` (`buildQueue`) and the Ready-Ticket selection in
`fetchReadyTickets` (`readyTickets`) — is sorted ascending by the two-key
order `keyOrder` (primary: non-empty `blocked_by` sorts after empty;
secondary: priority compared lexicographically with null read as "P4"),
is a permutation of the filtered input, and is stable: the elements
holding any fixed (blocked-state, priority) key appear in exactly the
order the remote listing supplied them (filtering and projection preserve
that order, and sorting preserves it within each key). -/
theorem queue_builder_sorted_stable (targetApp aiSquadId : String) (tickets : List Ticket) :
    ((buildQueue targetApp aiSquadId tickets).Pairwise
        (fun a b => keyOrder (sortKeyQ a) (sortKeyQ b))
      ∧ List.Perm (buildQueue targetApp aiSquadId tickets)
          ((tickets.filter (activePred targetApp aiSquadId)).map toQueueItem)
      ∧ ∀ k : Nat × String,
          (buildQueue targetApp aiSquadId tickets).filter (fun q => sortKeyQ q == k)
            = ((tickets.filter (activePred targetApp aiSquadId)).map toQueueItem).filter
                (fun q => sortKeyQ q == k))
    ∧ ((readyTickets targetApp aiSquadId tickets).Pairwise
        (fun a b => keyOrder (sortKeyT a) (sortKeyT b))
      ∧ List.Perm (readyTickets targetApp aiSquadId tickets)
          (tickets.filter (readyPred targetApp aiSquadId))
      ∧ ∀ k : Nat × String,
          (readyTickets targetApp aiSquadId tickets).filter (fun t => sortKeyT t == k)
            = (tickets.filter (readyPred targetApp aiSquadId)).filter
                (fun t => sortKeyT t == k)) :=
  ⟨stableSortByKey_props sortKeyQ ((tickets.filter (activePred targetApp aiSquadId)).map toQueueItem),
   stableSortByKey_props sortKeyT (tickets.filter (readyPred targetApp aiSquadId))⟩

/-- C2: a normalized ticket passes the `syncState` filter — and hence
appears (as its queue projection) in the active queue — if and only if
its application matches the configured scope tag (every application
matching when the scope is unset), it is eligible (the configured acting
identity is among its assignees, or no acting identity is configured),
and its status is outside the exclusion set
(Done / Blocked by human / On hold). -/
theorem active_queue_filter (targetApp aiSquadId : String) (tickets : List Ticket) (t : Ticket) :
    (activePred targetApp aiSquadId t = true ↔
      ((targetApp = "" ∨ t.application = some targetApp)
        ∧ (aiSquadId = "" ∨ aiSquadId ∈ t.assignees)
        ∧ t.status ∉ (["Done", "Blocked by human", "On hold"] : List String)))
    ∧ (t ∈ tickets.filter (activePred targetApp aiSquadId) ↔
        t ∈ tickets ∧ activePred targetApp aiSquadId t = true)
    ∧ (toQueueItem t ∈ buildQueue targetApp aiSquadId tickets ↔
        ∃ u, u ∈ tickets ∧ activePred targetApp aiSquadId u = true
          ∧ toQueueItem u = toQueueItem t) := by
  refine ⟨?_, List.mem_filter, ?_⟩
  · simp [activePred, matchesApp, assignedToAISquad, excludedStatuses,
      Bool.and_eq_true, Bool.or_eq_true, beq_iff_eq, List.contains, List.elem_eq_mem,
      and_assoc]
  · simp only [buildQueue, sortQueue]
    rw [(stableSortByKey_props sortKeyQ
      ((tickets.filter (activePred targetApp aiSquadId)).map toQueueItem)).2.1.mem_iff]
    simp only [List.mem_map, List.mem_filter]
    constructor
    · rintro ⟨u, ⟨hu, hp⟩, he⟩
      exact ⟨u, hu, hp, he⟩
    · rintro ⟨u, hu, hp, he⟩
      exact ⟨u, ⟨hu, hp⟩, he⟩

theorem fetchLoop_error {α : Type} (e : QueryResponse α) (he : e.isError = true) :
    ∀ (pre : List (QueryResponse α)),
      (∀ r ∈ pre, r.isError = false ∧ cursorTruthy (respCursor r) = true) →
      ∀ (rest : List (QueryResponse α)) (c : Option String),
        (fetchLoop (pre ++ e :: rest) c).2
          = .error ("Data source query error: " ++ e.message) := by
  intro pre
  induction pre with
  | nil =>
    intro _ rest c
    simp [fetchLoop, he]
  | cons r pre ih =>
    intro hpre rest c
    have hr := hpre r (List.mem_cons_self r pre)
    have hrest : ∀ q ∈ pre, q.isError = false ∧ cursorTruthy (respCursor q) = true :=
      fun q hq => hpre q (List.mem_cons_of_mem r hq)
    simp only [List.cons_append, fetchLoop, hr.1, hr.2, Bool.false_eq_true, if_false, if_true,
      List.append_eq]
    rw [ih hrest rest (respCursor r)]
    rfl

/-- C3: the paginated fetch issues exactly one request per cursor — for a
remote whose successive responses carry the cursor chain [A, B, none] it
issues exactly the three requests with cursors [none, A, B], returning
the three pages' results concatenated in traversal order — and any
error-flagged response on any page aborts the whole traversal with a
descriptive failure, the `Except.error` outcome carrying none of the
pages accumulated before the failing one. -/
theorem fetch_pagination_and_abort :
    (∀ (r1 r2 r3 : QueryResponse Nat) (a b : String),
      r1.isError = false → r2.isError = false → r3.isError = false →
      respCursor r1 = some a → a ≠ "" →
      respCursor r2 = some b → b ≠ "" →
      cursorTruthy (respCursor r3) = false →
      fetchAllShipyardPages [r1, r2, r3]
        = ([none, some a, some b], .ok (r1.results ++ (r2.results ++ r3.results))))
    ∧ (∀ (pre rest : List (QueryResponse Nat)) (e : QueryResponse Nat),
      e.isError = true →
      (∀ r ∈ pre, r.isError = false ∧ cursorTruthy (respCursor r) = true) →
      (fetchAllShipyardPages (pre ++ e :: rest)).2
        = .error ("Data source query error: " ++ e.message)) := by
  constructor
  · intro r1 r2 r3 a b h1 h2 h3 hc1 ha hc2 hb hc3
    have ta : cursorTruthy (some a) = true := by simp [cursorTruthy, ha]
    have tb : cursorTruthy (some b) = true := by simp [cursorTruthy, hb]
    simp [fetchAllShipyardPages, fetchLoop, h1, h2, h3, ta, tb, hc1, hc2, hc3, Except.map]
  · intro pre rest e he hpre
    exact fetchLoop_error e he pre hpre rest none

/-- C3 witness: a concrete three-page traversal with cursors [A, B, none]
yields requests [none, A, B] and pages [1,2]++[3]++[4]; an error on page 2
aborts with the descriptive failure and no partial data. -/
theorem fetch_pagination_and_abort_witness :
    fetchAllShipyardPages [respA, respB, respC]
      = ([none, some "A", some "B"], .ok ([1, 2] ++ ([3] ++ [4])))
    ∧ (fetchAllShipyardPages ([respA] ++ respErr :: [respC])).2
      = .error ("Data source query error: " ++ "boom") :=
  ⟨fetch_pagination_and_abort.1 respA respB respC "A" "B" rfl rfl rfl rfl
      (by decide) rfl (by decide) rfl,
    fetch_pagination_and_abort.2 [respA] [respC] respErr rfl
      (by intro r hr; rw [List.mem_singleton.mp hr]; exact ⟨rfl, rfl⟩)⟩

/-- C4: the snapshot `syncState` persists carries a queue that is a full
replacement computed from the fresh ticket set — it does not depend on
the previously persisted snapshot in any way — and a history equal, in
content and order, to the history recovered from the prior snapshot,
which is empty when the persisted file is absent or unparsable. -/
theorem sync_snapshot_replacement (targetApp aiSquadId : String)
    (tickets : List Ticket) (disk disk2 : DiskFile) (now : String) :
    ((syncStateRun targetApp aiSquadId tickets disk now).queue
        = buildQueue targetApp aiSquadId tickets)
    ∧ ((syncStateRun targetApp aiSquadId tickets disk now).queue
        = (syncStateRun targetApp aiSquadId tickets disk2 now).queue)
    ∧ ((syncStateRun targetApp aiSquadId tickets disk now).history
        = some (loadHistory disk))
    ∧ loadHistory .absent = [] ∧ loadHistory .corrupted = []
    ∧ diskAfterSync targetApp aiSquadId tickets disk now
        = .valid (syncStateRun targetApp aiSquadId tickets disk now) :=
  ⟨rfl, rfl, rfl, rfl, rfl, rfl⟩

/-- C5 counterexample: with a corrupted (non-JSON) snapshot on disk,
`appendHistory(entry)` leaves the file corrupted and unreadable — the
persisted state is not one whose history is `[entry]`, contradicting the
claim that the prior corruption is discarded and replaced. -/
theorem append_history_corrupted_counterexample :
    appendHistory .corrupted sampleEntry = .corrupted
    ∧ loadHistory (appendHistory .corrupted sampleEntry) ≠ [sampleEntry]
    ∧ ∀ st : HumanizeState, appendHistory .corrupted sampleEntry ≠ .valid st :=
  ⟨rfl, by decide, fun st h => DiskFile.noConfusion h⟩

/-- C5 amended: `appendHistory` silently no-ops both when the snapshot
file is missing and when it is corrupted — a corrupted file is left
unchanged on disk (its content is discarded only by the next full
`syncState` rebuild, which starts from empty history) — and on a parsable
snapshot it appends the single entry at the end of the history. -/
theorem append_history_behavior (item : HistoryItem) (st : HumanizeState) :
    appendHistory .corrupted item = .corrupted
    ∧ appendHistory .absent item = .absent
    ∧ appendHistory (.valid st) item
        = .valid { st with history := some (st.history.getD [] ++ [item]) }
    ∧ loadHistory (appendHistory .corrupted item) = [] :=
  ⟨rfl, rfl, rfl, rfl⟩

/-- C6 counterexample: the `updateTicketStatus` of the generalized bridge
(`src/unnamed/part_001`) PATCHes only the status: setting "Done" through
it carries no resolved-at timestamp in the write, contradicting the claim
for that cited symbol. -/
theorem update_status_humanize_counterexample :
    (updateTicketStatusPropsHumanize "Done").resolved_at = none
    ∧ (updateTicketStatusPropsHumanize "Review AI Fix").resolved_at = none :=
  ⟨rfl, rfl⟩

/-- C6 amended: the scripts-variant `updateTicketStatus`
(`src/scripts/notion-bridge.ts`) stamps a resolved-at timestamp in the
same write exactly for "Done" and "Review AI Fix" and for no other
status, and accepts every status value (no transition is forbidden);
the part_001 variant also accepts every status but never stamps
resolved-at. -/
theorem update_status_resolved_at (status now : String) :
    ((updateTicketStatusProps status now).status = status)
    ∧ ((updateTicketStatusProps status now).resolved_at
        = if status = "Done" ∨ status = "Review AI Fix" then some now else none)
    ∧ ((updateTicketStatusPropsHumanize status).status = status)
    ∧ ((updateTicketStatusPropsHumanize status).resolved_at = none) := by
  refine ⟨rfl, ?_, rfl, rfl⟩
  by_cases h1 : status = "Done" <;> by_cases h2 : status = "Review AI Fix" <;>
    simp [updateTicketStatusProps, h1, h2]

/-- C7 counterexample: a page whose Status property carries the unknown
select name "Garbage" extracts to a ticket whose status is the string
"Garbage" — a value outside the closed `ShipyardStatus` enum, not the
claimed fallback "Open" (the TypeScript `as` cast performs no runtime
check, and `?? "Open"` replaces only null). -/
theorem extract_unknown_status_counterexample :
    (extractTicket "" garbageStatusPage).map RawTicket.status = .ok (.jstr "Garbage")
    ∧ "Garbage" ∉ shipyardStatusNames :=
  ⟨rfl, by decide⟩

/-- C7 amended: extraction of the status never raises, and the produced
status is the raw single-choice value unchanged whenever that value is
non-null — including unknown names outside the closed enum — falling back
to the deterministic default "Open" exactly when the extraction yields
null (status property absent, falsy, or of an unhandled shape). -/
theorem extract_status_fallback :
    (∀ props : JVal,
      (extractSelect (jGet props "Status") = .jnull → extractStatus props = .jstr "Open")
      ∧ (extractSelect (jGet props "Status") ≠ .jnull →
          extractStatus props = extractSelect (jGet props "Status"))
      ∧ (jTruthy (jGet props "Status") = false → extractStatus props = .jstr "Open"))
    ∧ (∀ (aiSquadId : String) (page : JVal) (t : RawTicket),
        extractTicket aiSquadId page = .ok t →
        t.status = extractStatus (jvalOrD (jGet page "properties") (.jobj []))) := by
  constructor
  · intro props
    refine ⟨?_, ?_, ?_⟩
    · intro h
      simp [extractStatus, h, jvalOrD]
    · intro h
      rcases hv : extractSelect (jGet props "Status") with _ | b | n | s | xs | fs
      · exact absurd hv h
      all_goals simp [extractStatus, hv, jvalOrD]
    · intro h
      simp [extractStatus, extractSelect, h, jvalOrD]
  · intro aiSquadId page t h
    simp only [extractTicket, bind, Except.bind] at h
    split at h <;> try exact Except.noConfusion h
    split at h <;> try exact Except.noConfusion h
    split at h <;> try exact Except.noConfusion h
    split at h <;> try exact Except.noConfusion h
    split at h <;> try exact Except.noConfusion h
    split at h <;> try exact Except.noConfusion h
    split at h <;> try exact Except.noConfusion h
    split at h <;> try exact Except.noConfusion h
    split at h <;> try exact Except.noConfusion h
    cases h
    rfl

/-- C7 witness: a page with no Status property falls back to "Open", and
the ticket extracted from the empty page carries exactly the status the
status line computes. -/
theorem extract_status_fallback_witness :
    extractStatus (JVal.jobj []) = .jstr "Open"
    ∧ (emptyPageTicket "").status
        = extractStatus (jvalOrD (jGet (JVal.jobj []) "properties") (.jobj [])) :=
  ⟨(extract_status_fallback.1 (JVal.jobj [])).1 rfl,
   extract_status_fallback.2 "" (JVal.jobj []) (emptyPageTicket "") rfl⟩

/-- C8 counterexample: a `rich_text`-tagged property whose payload is the
number 42 makes `extractPlainText` raise a TypeError (`42?.map` is not a
function) instead of degrading to the neutral default — so not every
malformed shape is absorbed. -/
theorem extractor_raises_counterexample :
    extractPlainText badRichTextProp = .error "TypeError: map is not a function"
    ∧ (extractPlainText badRichTextProp).isOk = false :=
  ⟨rfl, rfl⟩

theorem mapStrict_ok (k : String) (xs : List JVal) (h : xs.all elemNotNull = true) :
    mapStrict k xs = .ok (xs.map (fun t => jGet t k)) := by
  induction xs with
  | nil => rfl
  | cons x xs ih =>
    simp only [List.all_cons, Bool.and_eq_true] at h
    have hgx : jGetStrict x k = .ok (jGet x k) := by
      cases x <;> simp_all [jGetStrict, elemNotNull]
    have ihx := ih h.2
    simp only [mapStrict, List.mapM_cons] at ihx ⊢
    have ihx2 : List.mapM.loop (fun t => jGetStrict t k) xs []
        = Except.ok (List.map (fun t => jGet t k) xs) := ihx
    simp [hgx, ihx2, bind, Except.bind, pure, Except.pure]

/-- C8 amended: the scalar extractors (single-choice, url, date) are total
and degrade to null on absent or mismatched input; the text and
collection extractors degrade to their neutral defaults on absent or
tag-mismatched input and never raise when the payload under a matching
tag is nullish or an array all of whose elements are non-nullish; the
malformed shapes that do raise a TypeError are a non-nullish non-array
payload under a matching tag, and a nullish element inside an array
payload (the map callback accesses a property on it); and the Normalizer
applied to a page missing every optional field (even the `properties`
map) succeeds, yielding the sentinel title "(untitled)" and neutral
defaults throughout. -/
theorem extractors_neutral_or_raise :
    (∀ prop : JVal, jEqStr (jGet prop "type") "rich_text" = false →
      jEqStr (jGet prop "type") "title" = false → extractPlainText prop = .ok none)
    ∧ (∀ prop : JVal, jEqStr (jGet prop "type") "select" = false →
      jEqStr (jGet prop "type") "status" = false → extractSelect prop = .jnull)
    ∧ (∀ prop : JVal, jEqStr (jGet prop "type") "multi_select" = false →
      (jEqStr (jGet prop "type") "select" && jTruthy (jGet (jGet prop "select") "name")) = false →
      extractMultiSelect prop = .ok [])
    ∧ (∀ prop : JVal, jEqStr (jGet prop "type") "url" = false → extractUrl prop = .jnull)
    ∧ (∀ prop : JVal, jEqStr (jGet prop "type") "date" = false → extractDate prop = .jnull)
    ∧ (∀ prop : JVal, jEqStr (jGet prop "type") "relation" = false →
        extractRelationIds prop = .ok [])
    ∧ (∀ prop : JVal, jEqStr (jGet prop "type") "people" = false →
        extractAssigneeIds prop = .ok [])
    ∧ (∀ prop : JVal, arrayishSafe (jGet prop "rich_text") = true →
        arrayishSafe (jGet prop "title") = true → (extractPlainText prop).isOk = true)
    ∧ (∀ prop : JVal, arrayishSafe (jGet prop "multi_select") = true →
        (extractMultiSelect prop).isOk = true)
    ∧ (∀ prop : JVal, arrayishSafe (jGet prop "relation") = true →
        (extractRelationIds prop).isOk = true)
    ∧ (∀ prop : JVal, arrayishSafe (jGet prop "people") = true →
        (extractAssigneeIds prop).isOk = true)
    ∧ (extractPlainText nullElemRichTextProp).isOk = false
    ∧ (extractMultiSelect nullElemMultiProp).isOk = false
    ∧ (extractRelationIds nullElemRelationProp).isOk = false
    ∧ (extractAssigneeIds nullElemPeopleProp).isOk = false
    ∧ (∀ aiSquadId : String, extractTicket aiSquadId (.jobj []) = .ok (emptyPageTicket aiSquadId)) := by
  refine ⟨?_, ?_, ?_, ?_, ?_, ?_, ?_, ?_, ?_, ?_, ?_, rfl, rfl, rfl, rfl, ?_⟩
  · intro prop h1 h2
    by_cases ht : jTruthy prop <;> simp [extractPlainText, ht, h1, h2]
  · intro prop h1 h2
    by_cases ht : jTruthy prop <;> simp [extractSelect, ht, h1, h2]
  · intro prop h1 h2
    by_cases ht : jTruthy prop <;> simp [extractMultiSelect, ht, h1, h2]
  · intro prop h1
    by_cases ht : jTruthy prop <;> simp [extractUrl, ht, h1]
  · intro prop h1
    by_cases ht : jTruthy prop <;> simp [extractDate, ht, h1]
  · intro prop h1
    by_cases ht : jTruthy prop <;> simp [extractRelationIds, ht, h1]
  · intro prop h1
    by_cases ht : jTruthy prop <;> simp [extractAssigneeIds, ht, h1]
  · intro prop h1 h2
    by_cases ht : jTruthy prop
    · by_cases e1 : jEqStr (jGet prop "type") "rich_text" = true
      · rcases hv : jGet prop "rich_text" with _ | b | n | s | xs | fs <;> rw [hv] at h1
        · simp [extractPlainText, extractTextField, ht, e1, hv, Except.isOk, Except.toBool]
        · simp [arrayishSafe] at h1
        · simp [arrayishSafe] at h1
        · simp [arrayishSafe] at h1
        · simp only [arrayishSafe] at h1
          simp [extractPlainText, extractTextField, ht, e1, hv,
            mapStrict_ok "plain_text" xs h1, Except.isOk, Except.toBool, bind, Except.bind]
        · simp [arrayishSafe] at h1
      · by_cases e2 : jEqStr (jGet prop "type") "title" = true
        · rcases hv : jGet prop "title" with _ | b | n | s | xs | fs <;> rw [hv] at h2
          · simp [extractPlainText, extractTextField, ht, e1, e2, hv, Except.isOk, Except.toBool]
          · simp [arrayishSafe] at h2
          · simp [arrayishSafe] at h2
          · simp [arrayishSafe] at h2
          · simp only [arrayishSafe] at h2
            simp [extractPlainText, extractTextField, ht, e1, e2, hv,
              mapStrict_ok "plain_text" xs h2, Except.isOk, Except.toBool, bind, Except.bind]
          · simp [arrayishSafe] at h2
        · simp [extractPlainText, ht, e1, e2, Except.isOk, Except.toBool]
    · simp [extractPlainText, ht, Except.isOk, Except.toBool]
  · intro prop h1
    by_cases ht : jTruthy prop
    · by_cases e1 : jEqStr (jGet prop "type") "multi_select" = true
      · rcases hv : jGet prop "multi_select" with _ | b | n | s | xs | fs <;> rw [hv] at h1
        · simp [extractMultiSelect, ht, e1, hv, Except.isOk, Except.toBool]
        · simp [arrayishSafe] at h1
        · simp [arrayishSafe] at h1
        · simp [arrayishSafe] at h1
        · simp only [arrayishSafe] at h1
          simp [extractMultiSelect, ht, e1, hv, mapStrict_ok "name" xs h1,
            Except.isOk, Except.toBool]
        · simp [arrayishSafe] at h1
      · by_cases e2 : (jEqStr (jGet prop "type") "select"
            && jTruthy (jGet (jGet prop "select") "name")) = true <;>
          simp [extractMultiSelect, ht, e1, e2, Except.isOk, Except.toBool]
    · simp [extractMultiSelect, ht, Except.isOk, Except.toBool]
  · intro prop h1
    by_cases ht : (!jTruthy prop || !jEqStr (jGet prop "type") "relation") = true
    · simp [extractRelationIds, ht, Except.isOk, Except.toBool]
    · rcases hv : jGet prop "relation" with _ | b | n | s | xs | fs <;> rw [hv] at h1
      · simp [extractRelationIds, ht, hv, Except.isOk, Except.toBool]
      · simp [arrayishSafe] at h1
      · simp [arrayishSafe] at h1
      · simp [arrayishSafe] at h1
      · simp only [arrayishSafe] at h1
        simp [extractRelationIds, ht, hv, mapStrict_ok "id" xs h1,
          Except.isOk, Except.toBool]
      · simp [arrayishSafe] at h1
  · intro prop h1
    by_cases ht : (!jTruthy prop || !jEqStr (jGet prop "type") "people") = true
    · simp [extractAssigneeIds, ht, Except.isOk, Except.toBool]
    · rcases hv : jGet prop "people" with _ | b | n | s | xs | fs <;> rw [hv] at h1
      · simp [extractAssigneeIds, ht, hv, Except.isOk, Except.toBool]
      · simp [arrayishSafe] at h1
      · simp [arrayishSafe] at h1
      · simp [arrayishSafe] at h1
      · simp only [arrayishSafe] at h1
        simp [extractAssigneeIds, ht, hv, mapStrict_ok "id" xs h1,
          Except.isOk, Except.toBool]
      · simp [arrayishSafe] at h1
  · intro aiSquadId
    cases h : (aiSquadId == "") <;>
      simp [extractTicket, extractMultiSelect, extractPlainText, extractRelationIds,
        isAssignedToAISquad, extractAssigneeIds, emptyPageTicket, h, extractStatus,
        extractSelect, extractUrl, extractDate, jGet, jvalOrD, jTruthy, jEqStr,
        bind, Except.bind, Except.map]

/-- C8 witness: absent input degrades to the neutral defaults, a
well-shaped rich-text property (array payload, no nullish element)
extracts without raising, a rich-text array payload holding a null
element raises, and the empty page normalizes to the all-defaults
ticket. -/
theorem extractors_neutral_or_raise_witness :
    extractPlainText .jnull = .ok none
    ∧ extractSelect .jnull = .jnull
    ∧ extractMultiSelect .jnull = .ok []
    ∧ extractUrl .jnull = .jnull
    ∧ extractDate .jnull = .jnull
    ∧ extractRelationIds .jnull = .ok []
    ∧ extractAssigneeIds .jnull = .ok []
    ∧ (extractPlainText (.jobj [("type", .jstr "rich_text"), ("rich_text", .jarr [])])).isOk = true
    ∧ (extractPlainText nullElemRichTextProp).isOk = false
    ∧ extractTicket "" (.jobj []) = .ok (emptyPageTicket "") := by
  obtain ⟨h1, h2, h3, h4, h5, h6, h7, h8, h9, h10, h11, h12, h13, h14, h15, h16⟩ :=
    extractors_neutral_or_raise
  exact ⟨h1 .jnull rfl rfl, h2 .jnull rfl rfl, h3 .jnull rfl rfl, h4 .jnull rfl,
    h5 .jnull rfl, h6 .jnull rfl, h7 .jnull rfl, h8 _ rfl rfl, h12, h16 ""⟩

theorem chunkBody_eq (body : List Char) :
    chunkBody body = if body = [] then [] else body.take 2000 :: chunkBody (body.drop 2000) := by
  rw [chunkBody]
  by_cases h : body = [] <;> simp [h]

theorem chunkBody_flatten_aux :
    ∀ (n : Nat) (b : List Char), b.length ≤ n → (chunkBody b).flatten = b := by
  intro n
  induction n with
  | zero =>
    intro b hb
    have hbe : b = [] := List.eq_nil_of_length_eq_zero (Nat.le_zero.mp hb)
    subst hbe
    rw [chunkBody_eq]
    simp
  | succ n ih =>
    intro b hb
    rw [chunkBody_eq]
    by_cases hbe : b = []
    · simp [hbe]
    · have hpos : 0 < b.length := List.length_pos.mpr hbe
      simp only [hbe, if_false, List.flatten_cons]
      rw [ih (b.drop 2000) (by simp [List.length_drop]; omega), List.take_append_drop]

theorem chunkBody_bounds_aux :
    ∀ (n : Nat) (b : List Char), b.length ≤ n →
      ∀ c ∈ chunkBody b, c.length ≤ 2000 ∧ c ≠ [] := by
  intro n
  induction n with
  | zero =>
    intro b hb
    have hbe : b = [] := List.eq_nil_of_length_eq_zero (Nat.le_zero.mp hb)
    subst hbe
    rw [chunkBody_eq]
    simp
  | succ n ih =>
    intro b hb c hc
    rw [chunkBody_eq] at hc
    by_cases hbe : b = []
    · simp [hbe] at hc
    · have hpos : 0 < b.length := List.length_pos.mpr hbe
      simp only [hbe, if_false, List.mem_cons] at hc
      rcases hc with rfl | hc
      · refine ⟨?_, ?_⟩
        · simp [List.length_take]
        · rw [Ne, List.take_eq_nil_iff]
          rintro (h | h)
          · exact absurd h (by decide)
          · exact hbe h
      · exact ih (b.drop 2000) (by simp [List.length_drop]; omega) c hc

theorem chunkBody_count_aux :
    ∀ (n : Nat) (b : List Char), b.length ≤ n →
      (chunkBody b).length = (b.length + 1999) / 2000 := by
  intro n
  induction n with
  | zero =>
    intro b hb
    have hbe : b = [] := List.eq_nil_of_length_eq_zero (Nat.le_zero.mp hb)
    subst hbe
    rw [chunkBody_eq]
    simp
  | succ n ih =>
    intro b hb
    rw [chunkBody_eq]
    by_cases hbe : b = []
    · simp [hbe]
    · have hpos : 0 < b.length := List.length_pos.mpr hbe
      simp only [hbe, if_false, List.length_cons]
      rw [ih (b.drop 2000) (by simp [List.length_drop]; omega)]
      simp only [List.length_drop]
      omega

/-- C9: `createTicket` splits the supplied body into consecutive spans of
at most 2000 units each (all spans non-empty), emits one paragraph block
per span in original order, the concatenation of the blocks' text
reconstructs the body exactly, and the number of blocks is
⌈length/2000⌉ — in particular a 4500-character body yields exactly 3
blocks. -/
theorem create_ticket_body_chunking (body : List Char) :
    (((createTicketChildren body).map ParagraphBlock.text).flatten = body)
    ∧ (∀ b ∈ createTicketChildren body, b.text.length ≤ 2000 ∧ b.text ≠ [])
    ∧ ((createTicketChildren body).length = (body.length + 1999) / 2000)
    ∧ (body.length = 4500 → (createTicketChildren body).length = 3) := by
  refine ⟨?_, ?_, ?_, ?_⟩
  · have hj := chunkBody_flatten_aux body.length body le_rfl
    simp only [createTicketChildren, List.map_map]
    rw [show (ParagraphBlock.text ∘ fun c => ({ text := c } : ParagraphBlock)) = id from rfl,
      List.map_id]
    exact hj
  · intro b hb
    simp only [createTicketChildren, List.mem_map] at hb
    obtain ⟨c, hc, rfl⟩ := hb
    exact chunkBody_bounds_aux body.length body le_rfl c hc
  · simpa [createTicketChildren] using chunkBody_count_aux body.length body le_rfl
  · intro h
    have := chunkBody_count_aux body.length body le_rfl
    simp [createTicketChildren, this, h]

/-- C9 witness: a 4500-character body produces exactly 3 blocks. -/
theorem create_ticket_body_chunking_witness :
    (createTicketChildren (List.replicate 4500 'a')).length = 3 :=
  (create_ticket_body_chunking (List.replicate 4500 'a')).2.2.2 (by rw [List.length_replicate])

/-- C10: the title `createTicket` sends (both variants call
`title.substring(0, 200)`) is the 200-unit front of the supplied title: a
title of length at most 200 is sent unchanged, and a longer title is
silently truncated to exactly its first 200 units. -/
theorem create_ticket_title_truncation (title : List Char) :
    ((createTicketTitle title).length = min title.length 200)
    ∧ (createTicketTitle title = title.take 200)
    ∧ (title.length ≤ 200 → createTicketTitle title = title)
    ∧ (200 < title.length →
        (createTicketTitle title).length = 200 ∧ createTicketTitle title ≠ title) := by
  refine ⟨?_, rfl, ?_, ?_⟩
  · simp [createTicketTitle, List.length_take, Nat.min_comm]
  · intro h
    simp [createTicketTitle, List.take_of_length_le h]
  · intro h
    have hl : (createTicketTitle title).length = 200 := by
      simp [createTicketTitle, List.length_take]
      omega
    refine ⟨hl, ?_⟩
    intro he
    rw [he] at hl
    omega

/-- C10 witness: a 100-character title passes unchanged; a 300-character
title is cut to 200 units. -/
theorem create_ticket_title_truncation_witness :
    createTicketTitle (List.replicate 100 'a') = List.replicate 100 'a'
    ∧ (createTicketTitle (List.replicate 300 'a')).length = 200 :=
  ⟨(create_ticket_title_truncation (List.replicate 100 'a')).2.2.1
      (by rw [List.length_replicate]; omega),
   ((create_ticket_title_truncation (List.replicate 300 'a')).2.2.2
      (by rw [List.length_replicate]; omega)).1⟩
